import Mathlib

/-!
Verification of the `PomodoroTimer` class from `timer.js` of the focusfi
repository. The class is shallowly embedded: its fields become a `Timer`
structure, its methods become pure functions of type `Timer → Timer × List Cb`
where `Cb` records the observer callbacks (`onTick` / `onEnd` / `onModeChange`)
fired by the call, in order. JavaScript numbers holding integer values are
modelled as `Int` (counters and seconds) and the `setInterval` handle as a
pair of fields: `hasInterval` mirrors `_interval !== null` and `liveIntervals`
counts the countdown intervals currently scheduled in the host, so that
"at most one countdown is active" is a provable property rather than a
modelling assumption.
-/

set_option autoImplicit false

namespace FocusFi

/-- The three timer modes: `'focus' | 'short' | 'long'`. -/
inductive Mode where
  | focus
  | short
  | long
deriving DecidableEq, Repr, Fintype

/-- The `this.durations` object: seconds per mode. -/
structure Durations where
  focus : Int
  short : Int
  long : Int
deriving DecidableEq, Repr

/-- Read `durations[mode]`. -/
def Durations.get (d : Durations) : Mode → Int
  | .focus => d.focus
  | .short => d.short
  | .long => d.long

/-- Write `durations[mode] = v`. -/
def Durations.put (d : Durations) : Mode → Int → Durations
  | .focus, v => { d with focus := v }
  | .short, v => { d with short := v }
  | .long, v => { d with long := v }

/-- One observer callback invocation, with its arguments. -/
inductive Cb where
  | tick (secondsLeft : Int) (mode : Mode)
  | ended (mode : Mode) (totalFocusSessions : Int)
  | modeChange (mode : Mode)
deriving DecidableEq, Repr

/-- The mutable fields of a `PomodoroTimer` instance. `hasInterval` mirrors
`this._interval !== null`; `liveIntervals` counts how many `setInterval`
countdowns are currently scheduled in the host environment. -/
structure Timer where
  durations : Durations
  mode : Mode
  timeLeft : Int
  isRunning : Bool
  focusSessions : Int
  hasInterval : Bool
  liveIntervals : Nat
deriving DecidableEq, Repr

/-- `new PomodoroTimer(opts)`: the constructor's field initialisation. -/
def Timer.new : Timer where
  durations := { focus := 25 * 60, short := 5 * 60, long := 15 * 60 }
  mode := .focus
  timeLeft := 25 * 60
  isRunning := false
  focusSessions := 0
  hasInterval := false
  liveIntervals := 0

/-- `start()`: no-op if running, else set the flag and schedule an interval. -/
def Timer.start (t : Timer) : Timer :=
  if t.isRunning then t
  else { t with
    isRunning := true
    hasInterval := true
    liveIntervals := t.liveIntervals + 1 }

/-- `pause()`: clear the flag and `clearInterval(this._interval)`, which
cancels the stored interval when one is stored (`clearInterval(null)` is a
host-level no-op), then null the handle. -/
def Timer.pause (t : Timer) : Timer :=
  { t with
    isRunning := false
    liveIntervals := if t.hasInterval then t.liveIntervals - 1 else t.liveIntervals
    hasInterval := false }

/-- `toggle()`: pause if running else start; returns the new `isRunning`. -/
def Timer.toggle (t : Timer) : Timer × Bool :=
  let t' := if t.isRunning then t.pause else t.start
  (t', t'.isRunning)

/-- `reset()`: pause, restore `timeLeft` to the current mode's duration,
fire `onTick`. -/
def Timer.reset (t : Timer) : Timer × List Cb :=
  let t1 := t.pause
  let t2 := { t1 with timeLeft := t1.durations.get t1.mode }
  (t2, [Cb.tick t2.timeLeft t2.mode])

/-- `setMode(mode)`: set the mode, set `timeLeft` to its duration, pause,
fire `onModeChange` then `onTick`. -/
def Timer.setMode (t : Timer) (m : Mode) : Timer × List Cb :=
  let t1 := { t with mode := m, timeLeft := t.durations.get m }
  let t2 := t1.pause
  (t2, [Cb.modeChange m, Cb.tick t2.timeLeft m])

/-- `setDuration(mode, minutes)`: store `Math.max(1, Math.min(99, minutes)) * 60`
for `mode`, then `reset()` when `mode` is the active one. -/
def Timer.setDuration (t : Timer) (m : Mode) (minutes : Int) : Timer × List Cb :=
  let secs := max 1 (min 99 minutes) * 60
  let t1 := { t with durations := t.durations.put m secs }
  if t1.mode = m then t1.reset else (t1, [])

/-- `_handleEnd()`: bump the counter on a focus end, fire `onEnd`, then
auto-advance via `setMode` (long after every 4th focus session, short after
the others, focus after a break). -/
def Timer.handleEnd (t : Timer) : Timer × List Cb :=
  let endedMode := t.mode
  let t1 := if endedMode = .focus then { t with focusSessions := t.focusSessions + 1 } else t
  let next : Mode :=
    if endedMode = .focus then (if t1.focusSessions % 4 = 0 then .long else .short)
    else .focus
  let r := t1.setMode next
  (r.1, Cb.ended endedMode t1.focusSessions :: r.2)

/-- `_tick()`: decrement, fire `onTick`, then handle expiry when
`timeLeft <= 0`. -/
def Timer.tick (t : Timer) : Timer × List Cb :=
  let t1 := { t with timeLeft := t.timeLeft - 1 }
  if t1.timeLeft ≤ 0 then
    let r := t1.handleEnd
    (r.1, Cb.tick t1.timeLeft t1.mode :: r.2)
  else
    (t1, [Cb.tick t1.timeLeft t1.mode])

/-- `String.prototype.padStart(2, '0')`. -/
def padStart2 (s : String) : String :=
  if 2 ≤ s.length then s else String.mk (List.replicate (2 - s.length) '0') ++ s

/-- `format(seconds)` for a non-negative integer number of seconds:
`Math.floor(seconds / 60)` and `seconds % 60`, zero-padded, joined by `':'`. -/
def format (seconds : Nat) : String :=
  padStart2 (toString (seconds / 60)) ++ ":" ++ padStart2 (toString (seconds % 60))

/-- The events a caller (or the host's interval scheduling) can deliver to the
timer. `tickE` is the interval callback firing; it reaches `_tick` only while
an interval is scheduled. -/
inductive Ev where
  | startE
  | pauseE
  | toggleE
  | resetE
  | setModeE (m : Mode)
  | setDurationE (m : Mode) (minutes : Int)
  | tickE
deriving DecidableEq, Repr

/-- One step of the timer: dispatch an event to the method it invokes,
returning the new state and the callbacks fired. A `tickE` with no scheduled
interval is the host delivering nothing: the state is unchanged. -/
def step (t : Timer) : Ev → Timer × List Cb
  | .startE => (t.start, [])
  | .pauseE => (t.pause, [])
  | .toggleE => (t.toggle.1, [])
  | .resetE => t.reset
  | .setModeE m => t.setMode m
  | .setDurationE m k => t.setDuration m k
  | .tickE => if t.liveIntervals ≠ 0 then t.tick else (t, [])

/-- Run a list of events from a state, discarding callbacks. -/
def runEvents (t : Timer) (es : List Ev) : Timer :=
  es.foldl (fun s e => (step s e).1) t

/-- A running focus session one second away from natural expiry, with no
completed focus sessions yet. -/
def expiringFocus : Timer :=
  { Timer.new with timeLeft := 1, isRunning := true, hasInterval := true, liveIntervals := 1 }

/-- States reachable from a freshly constructed timer. -/
inductive Reachable : Timer → Prop where
  | init : Reachable Timer.new
  | next (t : Timer) (e : Ev) : Reachable t → Reachable (step t e).1

/-- Bookkeeping part of the invariant: every configured duration is at least
one minute, the stored interval handle is non-null exactly while running, and
exactly one countdown interval is scheduled while running (none otherwise). -/
def InvCore (t : Timer) : Prop :=
  (∀ m, 60 ≤ t.durations.get m) ∧
  t.hasInterval = t.isRunning ∧
  t.liveIntervals = (if t.isRunning then 1 else 0)

/-- Full invariant: bookkeeping plus `1 ≤ timeLeft ≤ durations[mode]`. -/
def Inv (t : Timer) : Prop :=
  1 ≤ t.timeLeft ∧ t.timeLeft ≤ t.durations.get t.mode ∧ InvCore t

/-! ### Basic lemmas about the durations map -/

lemma Durations.get_put_same (d : Durations) (m : Mode) (v : Int) :
    (d.put m v).get m = v := by
  cases m <;> rfl

lemma Durations.get_put_other (d : Durations) (m m2 : Mode) (v : Int) (h : m2 ≠ m) :
    (d.put m v).get m2 = d.get m2 := by
  cases m <;> cases m2 <;> first | rfl | exact absurd rfl h

lemma clamp_secs_lower (k : Int) : 60 ≤ max 1 (min 99 k) * 60 := by
  have h : 1 ≤ max 1 (min 99 k) := le_max_left _ _
  omega

/-! ### The state invariant maintained by every reachable state -/

lemma inv_new : Inv Timer.new := by
  refine ⟨by decide, by decide, ?_, rfl, rfl⟩
  intro m
  cases m <;> decide

lemma invCore_pause {t : Timer} (h : InvCore t) : InvCore t.pause := by
  obtain ⟨hd, hh, hl⟩ := h
  refine ⟨hd, rfl, ?_⟩
  simp only [Timer.pause, hh, hl]
  cases t.isRunning <;> simp

lemma invCore_start {t : Timer} (h : InvCore t) : InvCore t.start := by
  obtain ⟨hd, hh, hl⟩ := h
  unfold Timer.start
  split
  · exact ⟨hd, hh, hl⟩
  · rename_i hr
    simp only [Bool.not_eq_true] at hr
    refine ⟨hd, rfl, ?_⟩
    simp [hl, hr]

lemma start_timeLeft (t : Timer) : t.start.timeLeft = t.timeLeft := by
  unfold Timer.start; split <;> rfl

lemma start_mode (t : Timer) : t.start.mode = t.mode := by
  unfold Timer.start; split <;> rfl

lemma start_durations (t : Timer) : t.start.durations = t.durations := by
  unfold Timer.start; split <;> rfl

lemma inv_start {t : Timer} (h : Inv t) : Inv t.start := by
  obtain ⟨h1, h2, hc⟩ := h
  exact ⟨by rw [start_timeLeft]; exact h1,
    by rw [start_timeLeft, start_mode, start_durations]; exact h2,
    invCore_start hc⟩

lemma inv_pause {t : Timer} (h : Inv t) : Inv t.pause :=
  ⟨h.1, h.2.1, invCore_pause h.2.2⟩

lemma setMode_inv {t : Timer} (m : Mode) (h : InvCore t) : Inv (t.setMode m).1 := by
  obtain ⟨hd, hh, hl⟩ := h
  refine ⟨?_, ?_, ?_, rfl, ?_⟩
  · simpa [Timer.setMode, Timer.pause] using le_trans (by omega) (hd m)
  · simp [Timer.setMode, Timer.pause]
  · intro m2
    simpa [Timer.setMode, Timer.pause] using hd m2
  · simp only [Timer.setMode, Timer.pause]
    rw [hh, hl]
    cases t.isRunning <;> simp

lemma handleEnd_inv {t : Timer} (h : InvCore t) : Inv (t.handleEnd).1 := by
  by_cases hm : t.mode = Mode.focus
  · simp only [Timer.handleEnd, hm, if_true]
    exact setMode_inv _ ⟨h.1, h.2.1, h.2.2⟩
  · simp only [Timer.handleEnd, hm, if_false]
    exact setMode_inv _ h

lemma tick_inv {t : Timer} (h : Inv t) : Inv (t.tick).1 := by
  obtain ⟨h1, h2, hd, hh, hl⟩ := h
  simp only [Timer.tick]
  split
  · exact handleEnd_inv ⟨hd, hh, hl⟩
  · rename_i hpos
    simp only [not_le] at hpos
    refine ⟨?_, ?_, hd, hh, hl⟩
    · show (1 : Int) ≤ t.timeLeft - 1
      omega
    · show t.timeLeft - 1 ≤ t.durations.get t.mode
      omega

lemma reset_inv {t : Timer} (h : InvCore t) : Inv (t.reset).1 := by
  obtain ⟨hd', hh', hl'⟩ := invCore_pause h
  refine ⟨?_, ?_, hd', hh', hl'⟩
  · show (1 : Int) ≤ t.durations.get t.mode
    exact le_trans (by omega) (h.1 t.mode)
  · exact le_refl _

lemma setDuration_inv {t : Timer} (m : Mode) (k : Int) (h : Inv t) :
    Inv (t.setDuration m k).1 := by
  obtain ⟨h1, h2, hd, hh, hl⟩ := h
  have hsec : 60 ≤ max 1 (min 99 k) * 60 := clamp_secs_lower k
  have hd' : ∀ m2, 60 ≤ (t.durations.put m (max 1 (min 99 k) * 60)).get m2 := by
    intro m2
    by_cases hm : m2 = m
    · subst hm
      rw [Durations.get_put_same]
      exact hsec
    · rw [Durations.get_put_other _ _ _ _ hm]
      exact hd m2
  simp only [Timer.setDuration]
  split
  · exact reset_inv ⟨hd', hh, hl⟩
  · rename_i hmode
    refine ⟨h1, ?_, hd', hh, hl⟩
    simpa [Durations.get_put_other _ _ _ _ hmode] using h2

lemma step_inv {t : Timer} (e : Ev) (h : Inv t) : Inv (step t e).1 := by
  cases e with
  | startE => exact inv_start h
  | pauseE => exact inv_pause h
  | toggleE =>
    simp only [step, Timer.toggle]
    split
    · exact inv_pause h
    · exact inv_start h
  | resetE => exact reset_inv h.2.2
  | setModeE m => exact setMode_inv m h.2.2
  | setDurationE m k => exact setDuration_inv m k h
  | tickE =>
    simp only [step]
    split
    · exact tick_inv h
    · exact h

lemma reachable_inv {t : Timer} (h : Reachable t) : Inv t := by
  induction h with
  | init => exact inv_new
  | next t e _ ih => exact step_inv e ih

/-! ### Length of the decimal rendering produced by `String(n)` -/

lemma length_le_toDigitsCore (b : Nat) (f : Nat) : ∀ (n : Nat) (l : List Char),
    l.length ≤ (Nat.toDigitsCore b f n l).length := by
  induction f with
  | zero => intro n l; simp [Nat.toDigitsCore]
  | succ f ih =>
    intro n l
    simp only [Nat.toDigitsCore]
    split
    · simp
    · exact le_trans (by simp) (ih _ _)

lemma length_lt_toDigitsCore (b : Nat) (f : Nat) (hf : 0 < f) (n : Nat) (l : List Char) :
    l.length + 1 ≤ (Nat.toDigitsCore b f n l).length := by
  cases f with
  | zero => omega
  | succ f =>
    simp only [Nat.toDigitsCore]
    split
    · simp
    · exact le_trans (by simp) (length_le_toDigitsCore b f _ _)

/-- A number of at least three decimal digits renders as a string of at least
three characters: the minutes field of `format` is not truncated. -/
lemma three_le_repr_length (n : Nat) (h : 100 ≤ n) : 3 ≤ (Nat.repr n).length := by
  obtain ⟨f, rfl⟩ : ∃ f, n = f + 1 := ⟨n - 1, by omega⟩
  have h1 : ¬ (f + 1) / 10 = 0 := by omega
  have h2 : ¬ (f + 1) / 10 / 10 = 0 := by omega
  have h3 : 0 < f := by omega
  show 3 ≤ (Nat.toDigitsCore 10 (f + 1 + 1) (f + 1) []).length
  simp only [Nat.toDigitsCore]
  rw [if_neg h1, if_neg h2]
  have hlen := length_lt_toDigitsCore 10 f h3 ((f + 1) / 10 / 10)
    [((f + 1) / 10 % 10).digitChar, ((f + 1) % 10).digitChar]
  simpa using hlen

lemma padStart2_of_two_le {s : String} (h : 2 ≤ s.length) : padStart2 s = s := by
  simp [padStart2, h]

/-! ### Characterisation of individual operations -/

lemma start_focusSessions (t : Timer) : t.start.focusSessions = t.focusSessions := by
  unfold Timer.start; split <;> rfl

lemma toggle_focusSessions (t : Timer) : (t.toggle).1.focusSessions = t.focusSessions := by
  simp only [Timer.toggle]
  split
  · rfl
  · exact start_focusSessions t

lemma setDuration_focusSessions (t : Timer) (m : Mode) (k : Int) :
    (t.setDuration m k).1.focusSessions = t.focusSessions := by
  simp only [Timer.setDuration]
  split <;> rfl

lemma setMode_fields (t : Timer) (m : Mode) :
    (t.setMode m).1.mode = m ∧
    (t.setMode m).1.timeLeft = t.durations.get m ∧
    (t.setMode m).1.durations = t.durations ∧
    (t.setMode m).1.isRunning = false ∧
    (t.setMode m).1.focusSessions = t.focusSessions ∧
    (t.setMode m).2 = [Cb.modeChange m, Cb.tick (t.durations.get m) m] :=
  ⟨rfl, rfl, rfl, rfl, rfl, rfl⟩

lemma handleEnd_fields (t : Timer) :
    (t.handleEnd).1.timeLeft = (t.handleEnd).1.durations.get (t.handleEnd).1.mode ∧
    (t.handleEnd).1.durations = t.durations ∧
    (t.handleEnd).1.isRunning = false ∧
    (t.handleEnd).1.liveIntervals =
      (if t.hasInterval then t.liveIntervals - 1 else t.liveIntervals) := by
  by_cases hm : t.mode = Mode.focus <;>
    simp only [Timer.handleEnd, hm, if_true, if_false] <;>
    exact ⟨rfl, rfl, rfl, rfl⟩

lemma handleEnd_mode (t : Timer) :
    (t.handleEnd).1.mode =
      (if t.mode = Mode.focus
        then (if (t.focusSessions + 1) % 4 = 0 then Mode.long else Mode.short)
        else Mode.focus) := by
  by_cases hm : t.mode = Mode.focus <;>
    simp only [Timer.handleEnd, hm, if_true, if_false] <;> rfl

lemma handleEnd_focusSessions (t : Timer) :
    (t.handleEnd).1.focusSessions =
      (if t.mode = Mode.focus then t.focusSessions + 1 else t.focusSessions) := by
  by_cases hm : t.mode = Mode.focus <;>
    simp only [Timer.handleEnd, hm, if_true, if_false] <;> rfl

lemma step_tick_expiry (t : Timer) (hli : t.liveIntervals ≠ 0) (hexp : t.timeLeft - 1 ≤ 0) :
    (step t .tickE).1 = ({ t with timeLeft := t.timeLeft - 1 } : Timer).handleEnd.1 := by
  simp only [step]
  rw [if_pos hli]
  simp only [Timer.tick]
  rw [if_pos hexp]

lemma step_tick_no_expiry (t : Timer) (hli : t.liveIntervals ≠ 0) (hexp : ¬ t.timeLeft - 1 ≤ 0) :
    (step t .tickE).1 = { t with timeLeft := t.timeLeft - 1 } := by
  simp only [step]
  rw [if_pos hli]
  simp only [Timer.tick]
  rw [if_neg hexp]

lemma tick_focusSessions (t : Timer) :
    (t.tick).1.focusSessions =
      (if t.timeLeft - 1 ≤ 0 ∧ t.mode = Mode.focus
        then t.focusSessions + 1 else t.focusSessions) := by
  by_cases hexp : t.timeLeft - 1 ≤ 0
  · simp only [Timer.tick]
    rw [if_pos hexp]
    have h := handleEnd_focusSessions ({ t with timeLeft := t.timeLeft - 1 } : Timer)
    simp only at h
    rw [h]
    by_cases hm : t.mode = Mode.focus <;> simp [hm, hexp]
  · simp only [Timer.tick]
    rw [if_neg hexp]
    simp [hexp]

/-! ### The claims -/

/-- Claim C1: starting a focus session whose countdown has 1 second remaining
(with no completed focus sessions) and letting it expire naturally fires, in
order, `onTick(0, focus)`, then `onEnd(focus, 1)`, then `onModeChange(short)`,
then `onTick(durations.short, short)`; afterwards the timer sits in `short`
with the full short duration. -/
theorem C1_focus_expiry_event_sequence (t : Timer)
    (hmode : t.mode = Mode.focus) (htl : t.timeLeft = 1)
    (hfs : t.focusSessions = 0) (hrun : t.liveIntervals ≠ 0) :
    (step t .tickE).2 =
      [Cb.tick 0 Mode.focus, Cb.ended Mode.focus 1, Cb.modeChange Mode.short,
       Cb.tick t.durations.short Mode.short] ∧
    (step t .tickE).1.mode = Mode.short ∧
    (step t .tickE).1.timeLeft = t.durations.short := by
  simp only [step]
  rw [if_pos hrun]
  simp only [Timer.tick]
  rw [if_pos (show t.timeLeft - 1 ≤ 0 by omega)]
  norm_num [Timer.handleEnd, Timer.setMode, Timer.pause, Durations.get, hmode, htl, hfs]

/-- Witness for C1 at a concrete expiring state. -/
theorem C1_focus_expiry_event_sequence_witness :
    (step expiringFocus .tickE).2 =
      [Cb.tick 0 Mode.focus, Cb.ended Mode.focus 1, Cb.modeChange Mode.short,
       Cb.tick expiringFocus.durations.short Mode.short] ∧
    (step expiringFocus .tickE).1.mode = Mode.short ∧
    (step expiringFocus .tickE).1.timeLeft = expiringFocus.durations.short :=
  C1_focus_expiry_event_sequence expiringFocus rfl rfl rfl (by decide)

/-- Claim C2: at a natural expiry, a focus session advances to `long` exactly
when the incremented counter is divisible by 4 and to `short` otherwise, so
the 4th consecutive focus expiry (counter 3 before the tick) goes to `long`
and the 5th (counter 4) back to `short`; a break always advances to `focus`. -/
theorem C2_expiry_next_mode (t : Timer) (hli : t.liveIntervals ≠ 0) (htl : t.timeLeft ≤ 1) :
    (t.mode = Mode.focus →
      ((step t .tickE).1.mode =
          (if (t.focusSessions + 1) % 4 = 0 then Mode.long else Mode.short) ∧
        (t.focusSessions = 3 → (step t .tickE).1.mode = Mode.long) ∧
        (t.focusSessions = 4 → (step t .tickE).1.mode = Mode.short))) ∧
    ((t.mode = Mode.short ∨ t.mode = Mode.long) → (step t .tickE).1.mode = Mode.focus) := by
  rw [step_tick_expiry t hli (by omega), handleEnd_mode]
  constructor
  · intro hm
    simp only [hm]
    refine ⟨by simp, ?_, ?_⟩
    · intro h3
      norm_num [h3]
    · intro h4
      norm_num [h4]
  · intro hm
    rcases hm with hm | hm <;> simp [hm]

/-- Witness for C2 at a concrete expiring state. -/
theorem C2_expiry_next_mode_witness :
    (expiringFocus.mode = Mode.focus →
      ((step expiringFocus .tickE).1.mode =
          (if (expiringFocus.focusSessions + 1) % 4 = 0 then Mode.long else Mode.short) ∧
        (expiringFocus.focusSessions = 3 → (step expiringFocus .tickE).1.mode = Mode.long) ∧
        (expiringFocus.focusSessions = 4 → (step expiringFocus .tickE).1.mode = Mode.short))) ∧
    ((expiringFocus.mode = Mode.short ∨ expiringFocus.mode = Mode.long) →
      (step expiringFocus .tickE).1.mode = Mode.focus) :=
  C2_expiry_next_mode expiringFocus (by decide) (by decide)

/-- Claim C9: `format` renders a non-negative seconds count as the decimal
minutes `s / 60` and seconds `s % 60`, each zero-padded to at least two
characters, joined by a colon; `format 65 = "01:05"`, `format 0 = "00:00"`,
and the minutes field is not clamped: at 100 minutes or more it keeps all of
its (at least three) digits. -/
theorem C9_format_mmss :
    format 65 = "01:05" ∧
    format 0 = "00:00" ∧
    (∀ s : Nat, format s =
      padStart2 (Nat.repr (s / 60)) ++ ":" ++ padStart2 (Nat.repr (s % 60))) ∧
    (∀ s : Nat, 6000 ≤ s →
      format s = Nat.repr (s / 60) ++ ":" ++ padStart2 (Nat.repr (s % 60)) ∧
      3 ≤ (Nat.repr (s / 60)).length) := by
  refine ⟨by decide, by decide, fun s => rfl, fun s hs => ?_⟩
  have hm : 100 ≤ s / 60 := by omega
  have h3 := three_le_repr_length _ hm
  refine ⟨?_, h3⟩
  show padStart2 (Nat.repr (s / 60)) ++ ":" ++ padStart2 (Nat.repr (s % 60)) = _
  rw [padStart2_of_two_le (by omega)]

/-- Witness for C9 at 100 minutes and 5 seconds. -/
theorem C9_format_mmss_witness :
    format 6005 = Nat.repr (6005 / 60) ++ ":" ++ padStart2 (Nat.repr (6005 % 60)) ∧
    3 ≤ (Nat.repr (6005 / 60)).length :=
  C9_format_mmss.2.2.2 6005 (by decide)

/-- Claim C5: `setDuration(mode, minutes)` always stores
`clamp(minutes, 1, 99) * 60` seconds for that mode; for minutes in `[1, 99]` a
following `setMode(mode)` shows `timeLeft = minutes * 60`, and out-of-range
minutes clamp to 60 or 5940 seconds. -/
theorem C5_setDuration_clamps (t : Timer) (m : Mode) (k : Int) :
    (t.setDuration m k).1.durations.get m = max 1 (min 99 k) * 60 ∧
    (1 ≤ k → k ≤ 99 →
      (((t.setDuration m k).1.setMode m).1.timeLeft = k * 60)) ∧
    (k < 1 → (t.setDuration m k).1.durations.get m = 60) ∧
    (99 < k → (t.setDuration m k).1.durations.get m = 99 * 60) := by
  have hget : (t.setDuration m k).1.durations.get m = max 1 (min 99 k) * 60 := by
    simp only [Timer.setDuration]
    split
    · show (t.durations.put m (max 1 (min 99 k) * 60)).get m = _
      exact Durations.get_put_same _ _ _
    · show (t.durations.put m (max 1 (min 99 k) * 60)).get m = _
      exact Durations.get_put_same _ _ _
  refine ⟨hget, ?_, ?_, ?_⟩
  · intro h1 h2
    calc ((t.setDuration m k).1.setMode m).1.timeLeft
        = (t.setDuration m k).1.durations.get m := rfl
      _ = max 1 (min 99 k) * 60 := hget
      _ = k * 60 := by omega
  · intro hk
    rw [hget]
    omega
  · intro hk
    rw [hget]
    omega

/-- Witness for C5 at a fresh timer with 30 focus minutes. -/
theorem C5_setDuration_clamps_witness :
    (Timer.new.setDuration Mode.focus 30).1.durations.get Mode.focus =
      max 1 (min 99 30) * 60 ∧
    ((Timer.new.setDuration Mode.focus 30).1.setMode Mode.focus).1.timeLeft = 30 * 60 :=
  ⟨(C5_setDuration_clamps Timer.new Mode.focus 30).1,
   (C5_setDuration_clamps Timer.new Mode.focus 30).2.1 (by decide) (by decide)⟩

/-- Claim C7: `reset()` in any state stops the countdown, restores `timeLeft`
to the current mode's full duration, fires exactly one `onTick` (no
`onModeChange`, no `onEnd`), and leaves the mode, the session counter and
every stored duration unchanged; in any reachable state it leaves no interval
scheduled. -/
theorem C7_reset_effects (t : Timer) :
    (t.reset).1.timeLeft = t.durations.get t.mode ∧
    (t.reset).1.isRunning = false ∧
    (t.reset).1.mode = t.mode ∧
    (t.reset).1.focusSessions = t.focusSessions ∧
    (t.reset).1.durations = t.durations ∧
    (t.reset).2 = [Cb.tick (t.durations.get t.mode) t.mode] ∧
    (Reachable t → (t.reset).1.liveIntervals = 0) := by
  refine ⟨rfl, rfl, rfl, rfl, rfl, rfl, ?_⟩
  intro h
  obtain ⟨-, -, -, hh, hl⟩ := reachable_inv h
  show (if t.hasInterval then t.liveIntervals - 1 else t.liveIntervals) = 0
  rw [hh, hl]
  cases t.isRunning <;> simp

/-- Witness for C7 at a fresh timer. -/
theorem C7_reset_effects_witness :
    (Timer.new.reset).1.timeLeft = Timer.new.durations.get Timer.new.mode ∧
    (Timer.new.reset).2 =
      [Cb.tick (Timer.new.durations.get Timer.new.mode) Timer.new.mode] ∧
    (Timer.new.reset).1.liveIntervals = 0 :=
  ⟨(C7_reset_effects Timer.new).1, (C7_reset_effects Timer.new).2.2.2.2.2.1,
   (C7_reset_effects Timer.new).2.2.2.2.2.2 Reachable.init⟩

/-- Claim C8: `setDuration(m, minutes)` on an inactive mode changes only
`durations[m]` — `timeLeft`, `mode`, `isRunning`, the session counter, the
interval bookkeeping and the other modes' durations are untouched and no
callback fires; on the active mode it additionally performs the implicit
`reset()`: the countdown stops, `timeLeft` becomes the new clamped duration,
and exactly one `onTick` fires with it. -/
theorem C8_setDuration_scope (t : Timer) (m : Mode) (k : Int) :
    (m ≠ t.mode →
      ((t.setDuration m k).1.timeLeft = t.timeLeft ∧
       (t.setDuration m k).1.mode = t.mode ∧
       (t.setDuration m k).1.isRunning = t.isRunning ∧
       (t.setDuration m k).1.focusSessions = t.focusSessions ∧
       (t.setDuration m k).1.hasInterval = t.hasInterval ∧
       (t.setDuration m k).1.liveIntervals = t.liveIntervals ∧
       (∀ m2, m2 ≠ m → (t.setDuration m k).1.durations.get m2 = t.durations.get m2) ∧
       (t.setDuration m k).2 = [])) ∧
    (m = t.mode →
      ((t.setDuration m k).1.isRunning = false ∧
       (t.setDuration m k).1.timeLeft = max 1 (min 99 k) * 60 ∧
       (t.setDuration m k).1.durations.get m = max 1 (min 99 k) * 60 ∧
       (t.setDuration m k).2 = [Cb.tick (max 1 (min 99 k) * 60) t.mode])) := by
  constructor
  · intro hne
    have hc : ¬ (t.mode = m) := fun hc => hne hc.symm
    simp only [Timer.setDuration]
    split
    · rename_i hcond
      exact absurd hcond hc
    · refine ⟨rfl, rfl, rfl, rfl, rfl, rfl, ?_, rfl⟩
      intro m2 hm2
      exact Durations.get_put_other _ _ _ _ hm2
  · intro heq
    subst heq
    simp only [Timer.setDuration]
    split
    · refine ⟨rfl, ?_, ?_, ?_⟩
      · exact Durations.get_put_same _ _ _
      · exact Durations.get_put_same _ _ _
      · show [Cb.tick ((t.durations.put t.mode (max 1 (min 99 k) * 60)).get t.mode) t.mode] = _
        rw [Durations.get_put_same]
    · rename_i hcond
      exact absurd (by trivial) hcond

/-- Witness for C8: inactive-mode update on a fresh timer, and active-mode
update on a fresh timer. -/
theorem C8_setDuration_scope_witness :
    (Timer.new.setDuration Mode.short 10).2 = [] ∧
    (Timer.new.setDuration Mode.short 10).1.timeLeft = Timer.new.timeLeft ∧
    (Timer.new.setDuration Mode.focus 10).1.timeLeft = max 1 (min 99 10) * 60 :=
  ⟨((C8_setDuration_scope Timer.new Mode.short 10).1 (by decide)).2.2.2.2.2.2.2,
   ((C8_setDuration_scope Timer.new Mode.short 10).1 (by decide)).1,
   ((C8_setDuration_scope Timer.new Mode.focus 10).2 (by decide)).2.1⟩

/-- Claim C3: in every reachable state `0 ≤ timeLeft ≤ durations[mode]`; while
running, a tick either decrements `timeLeft` by one or (at expiry) sets it to
the full duration of the advanced-to mode, and `reset` and `setMode` restore
`timeLeft` to the relevant mode's full duration. -/
theorem C3_timeLeft_bounds (t : Timer) (h : Reachable t) :
    (0 ≤ t.timeLeft ∧ t.timeLeft ≤ t.durations.get t.mode) ∧
    (t.isRunning = true →
      ((step t .tickE).1.timeLeft = t.timeLeft - 1 ∨
       (step t .tickE).1.timeLeft =
         (step t .tickE).1.durations.get (step t .tickE).1.mode)) ∧
    ((t.reset).1.timeLeft = t.durations.get t.mode) ∧
    (∀ m, (t.setMode m).1.timeLeft = t.durations.get m) := by
  obtain ⟨h1, h2, -, -, hl⟩ := reachable_inv h
  refine ⟨⟨by omega, h2⟩, ?_, rfl, fun m => rfl⟩
  intro hrun
  have hli : t.liveIntervals ≠ 0 := by rw [hl, if_pos hrun]; decide
  by_cases hexp : t.timeLeft - 1 ≤ 0
  · right
    rw [step_tick_expiry t hli hexp]
    exact (handleEnd_fields _).1
  · left
    rw [step_tick_no_expiry t hli hexp]

/-- Witness for C3 at the initial state and a started timer. -/
theorem C3_timeLeft_bounds_witness :
    (0 ≤ Timer.new.timeLeft ∧ Timer.new.timeLeft ≤ Timer.new.durations.get Timer.new.mode) ∧
    ((step Timer.new.start .tickE).1.timeLeft = Timer.new.start.timeLeft - 1 ∨
     (step Timer.new.start .tickE).1.timeLeft =
       (step Timer.new.start .tickE).1.durations.get (step Timer.new.start .tickE).1.mode) :=
  ⟨(C3_timeLeft_bounds Timer.new Reachable.init).1,
   (C3_timeLeft_bounds Timer.new.start
     (Reachable.next Timer.new .startE Reachable.init)).2.1 (by decide)⟩

/-- Claim C4: the completed-focus-sessions counter starts at 0, never
decreases, is untouched by every operation other than a tick, and a tick
changes it exactly when it causes a natural expiry of a focus session, where
it increases by one. -/
theorem C4_focus_sessions_counter :
    Timer.new.focusSessions = 0 ∧
    (∀ (t : Timer) (e : Ev), t.focusSessions ≤ (step t e).1.focusSessions) ∧
    (∀ (t : Timer) (e : Ev), e ≠ Ev.tickE → (step t e).1.focusSessions = t.focusSessions) ∧
    (∀ t : Timer, t.liveIntervals ≠ 0 → t.timeLeft ≤ 1 → t.mode = Mode.focus →
      (step t .tickE).1.focusSessions = t.focusSessions + 1) ∧
    (∀ t : Timer, t.liveIntervals ≠ 0 → t.timeLeft ≤ 1 → t.mode ≠ Mode.focus →
      (step t .tickE).1.focusSessions = t.focusSessions) ∧
    (∀ t : Timer, 1 < t.timeLeft → (step t .tickE).1.focusSessions = t.focusSessions) := by
  have hpres : ∀ (t : Timer) (e : Ev), e ≠ Ev.tickE →
      (step t e).1.focusSessions = t.focusSessions := by
    intro t e he
    cases e with
    | startE => exact start_focusSessions t
    | pauseE => rfl
    | toggleE => exact toggle_focusSessions t
    | resetE => rfl
    | setModeE m => rfl
    | setDurationE m k => exact setDuration_focusSessions t m k
    | tickE => exact absurd rfl he
  have hstepid : ∀ t : Timer, t.liveIntervals = 0 → (step t .tickE).1 = t := by
    intro t h
    simp only [step]
    rw [if_neg (by simp [h])]
  have htickchar : ∀ t : Timer, t.liveIntervals ≠ 0 →
      (step t .tickE).1.focusSessions =
        (if t.timeLeft - 1 ≤ 0 ∧ t.mode = Mode.focus
          then t.focusSessions + 1 else t.focusSessions) := by
    intro t hli
    have hs : (step t .tickE).1 = (t.tick).1 := by
      simp only [step]
      rw [if_pos hli]
    rw [hs, tick_focusSessions]
  refine ⟨rfl, ?_, hpres, ?_, ?_, ?_⟩
  · intro t e
    by_cases he : e = Ev.tickE
    · subst he
      by_cases hli : t.liveIntervals = 0
      · rw [hstepid t hli]
      · rw [htickchar t hli]
        split <;> omega
    · rw [hpres t e he]
  · intro t hli htl hm
    rw [htickchar t hli, if_pos ⟨by omega, hm⟩]
  · intro t hli htl hm
    rw [htickchar t hli, if_neg (fun hc => hm hc.2)]
  · intro t htl
    by_cases hli : t.liveIntervals = 0
    · rw [hstepid t hli]
    · rw [htickchar t hli, if_neg (fun hc => absurd hc.1 (by omega))]

/-- Witness for C4 at a concrete expiring focus state. -/
theorem C4_focus_sessions_counter_witness :
    (step expiringFocus .tickE).1.focusSessions = expiringFocus.focusSessions + 1 :=
  C4_focus_sessions_counter.2.2.2.1 expiringFocus (by decide) (by decide) rfl

/-- Claim C6: from a fresh timer `toggle()` returns `true` then `false`; every
reachable state has at most one scheduled countdown interval (exactly one
while running); two consecutive `start()` calls leave one interval so three
ticks decrement `timeLeft` by exactly 3; `start()` while running and
`pause()` while paused are state-preserving no-ops. -/
theorem C6_single_interval :
    (Timer.new.toggle.2 = true ∧ (Timer.new.toggle.1.toggle).2 = false) ∧
    (∀ t : Timer, Reachable t → t.liveIntervals ≤ 1 ∧
      t.liveIntervals = (if t.isRunning then 1 else 0)) ∧
    ((runEvents Timer.new [.startE, .startE]).liveIntervals = 1 ∧
     (runEvents Timer.new [.startE, .startE, .tickE, .tickE, .tickE]).timeLeft =
       Timer.new.timeLeft - 3) ∧
    (∀ t : Timer, t.isRunning = true → t.start = t) ∧
    (∀ t : Timer, Reachable t → t.isRunning = false → t.pause = t) := by
  refine ⟨by decide, ?_, by decide, ?_, ?_⟩
  · intro t h
    obtain ⟨-, -, -, -, hl⟩ := reachable_inv h
    refine ⟨?_, hl⟩
    rw [hl]
    cases t.isRunning <;> simp
  · intro t h
    unfold Timer.start
    rw [if_pos h]
  · intro t h hr
    obtain ⟨-, -, -, hh, -⟩ := reachable_inv h
    obtain ⟨d, mo, tl, run, fs, hi, li⟩ := t
    simp only at hr hh
    subst hr
    subst hh
    simp [Timer.pause]

/-- Witness for C6 at the initial state. -/
theorem C6_single_interval_witness :
    (Timer.new.liveIntervals ≤ 1 ∧
      Timer.new.liveIntervals = (if Timer.new.isRunning then 1 else 0)) ∧
    Timer.new.pause = Timer.new :=
  ⟨C6_single_interval.2.1 Timer.new Reachable.init,
   C6_single_interval.2.2.2.2 Timer.new Reachable.init rfl⟩

/-- Claim C10: immediately after any mode change — a manual `setMode` or the
automatic advancement at a natural expiry — the timer is paused: `isRunning`
is false, and (in reachable states) no countdown interval remains scheduled. -/
theorem C10_paused_after_mode_change (t : Timer) :
    (∀ m, (t.setMode m).1.isRunning = false) ∧
    (t.liveIntervals ≠ 0 → t.timeLeft ≤ 1 → (step t .tickE).1.isRunning = false) ∧
    (Reachable t →
      (∀ m, (t.setMode m).1.liveIntervals = 0) ∧
      (t.liveIntervals ≠ 0 → t.timeLeft ≤ 1 → (step t .tickE).1.liveIntervals = 0)) := by
  refine ⟨fun m => rfl, ?_, ?_⟩
  · intro hli htl
    rw [step_tick_expiry t hli (by omega)]
    exact (handleEnd_fields _).2.2.1
  · intro h
    obtain ⟨-, -, -, hh, hl⟩ := reachable_inv h
    constructor
    · intro m
      show (if t.hasInterval then t.liveIntervals - 1 else t.liveIntervals) = 0
      rw [hh, hl]
      cases t.isRunning <;> simp
    · intro hli htl
      rw [step_tick_expiry t hli (by omega)]
      have h4 := (handleEnd_fields ({ t with timeLeft := t.timeLeft - 1 } : Timer)).2.2.2
      simp only at h4
      rw [h4, hh, hl]
      cases t.isRunning <;> simp

/-- Witness for C10: automatic advancement at a concrete expiring state, and a
manual mode switch on a fresh timer. -/
theorem C10_paused_after_mode_change_witness :
    (step expiringFocus .tickE).1.isRunning = false ∧
    (Timer.new.setMode Mode.short).1.liveIntervals = 0 :=
  ⟨(C10_paused_after_mode_change expiringFocus).2.1 (by decide) (by decide),
   ((C10_paused_after_mode_change Timer.new).2.2 Reachable.init).1 Mode.short⟩

end FocusFi
